import Mathlib

/-!
Verification development for the skeletal-animation core of
`cpp-gl-animated-model`.

The C++ sources are shallowly embedded over exact rationals (`ℚ` in place
of C `float`/`double`; the claims under study are control-flow and
ordering properties, not rounding properties).  Each definition mirrors
one function of `src/inc/animated_model.hpp` or
`src/inc/skinned_model.hpp`; the mirrored lines are cited next to each
definition.  Mutable C++ state becomes explicit state passing; functions
whose C++ body can perform undefined behaviour (out-of-bounds `std::vector`
indexing) return `Option`, with `none` marking the undefined execution.
Output to `std::cerr` is modelled as an explicit log component, since a
few claims are about what is reported where.
-/

namespace AnimModel

/-- Truncation toward zero, as C `fmod` uses on the quotient. -/
def ctrunc (q : ℚ) : ℤ := if 0 ≤ q then ⌊q⌋ else ⌈q⌉

/-- C `fmod x y = x - y * trunc (x / y)` (sign of the result follows `x`). -/
def cfmod (x y : ℚ) : ℚ := x - y * (ctrunc (x / y) : ℚ)

/-- For nonnegative numerator and positive modulus, `cfmod` lands in
`[0, y)`: it equals `y * Int.fract (x / y)`. -/
theorem cfmod_nonneg_lt (x y : ℚ) (hx : 0 ≤ x) (hy : 0 < y) :
    0 ≤ cfmod x y ∧ cfmod x y < y := by
  have hq : 0 ≤ x / y := div_nonneg hx (le_of_lt hy)
  have hy0 : y ≠ 0 := ne_of_gt hy
  have hrepr : cfmod x y = y * Int.fract (x / y) := by
    rw [cfmod, ctrunc, if_pos hq, Int.fract, mul_sub, mul_comm y (x / y),
      div_mul_cancel₀ x hy0]
  constructor
  · rw [hrepr]
    exact mul_nonneg (le_of_lt hy) (Int.fract_nonneg _)
  · rw [hrepr]
    calc y * Int.fract (x / y) < y * 1 :=
          (mul_lt_mul_left hy).mpr (Int.fract_lt_one _)
    _ = y := mul_one y

/-- Clock advance of `AnimatedModel::SampleAnimation`
(`animated_model.hpp` lines 82-87): add `deltaTime` to the static
`animationTime`, then wrap with `fmod` only when the new value strictly
exceeds the duration. -/
def advanceClock (clock deltaTime duration : ℚ) : ℚ :=
  let t := clock + deltaTime
  if duration < t then cfmod t duration else t

/-- A built runtime animation as `AnimatedModel` observes it: `name()`,
`duration()` and `num_tracks()` (`animated_model.hpp` lines 34-35, 72-78).
The key data inside the ozz runtime animation is opaque to the model code
and is not needed by the claims about it. -/
structure RtAnimation where
  name : String
  duration : ℚ
  numTracks : Nat

/-- The private state of `class AnimatedModel` (`animated_model.hpp` lines
175-184).  `skeleton` (a unique_ptr) is modelled by the flag
`hasSkeleton`; the `joints` vector only feeds the inverse-bind-pose
product of step 3, which is folded into the abstract `sample` function
below; `context` is modelled by its allocated track capacity. -/
structure AnimatedModelState where
  hasSkeleton : Bool
  numJoints : Nat
  animations : List RtAnimation
  animationsMap : List (String × Nat)
  contextSize : Nat
  currentAnimation : Nat
  jointMatrices : List ℚ

/-- The whole mutable state one `AnimatedModel` can touch: the
function-local `static float animationTime` of `SampleAnimation`
(`animated_model.hpp` line 82) — a single program-wide variable, kept
outside the per-instance state —, the instance fields, and the text the
member functions print to `std::cerr`. -/
structure World where
  animationTime : ℚ
  model : AnimatedModelState
  stderrLog : List String

/-- `std::map::operator[]` assignment: replace the value of an existing
key, or insert the key (map iteration order is irrelevant to the claims;
only lookup and size are observed). -/
def mapSet (k : String) (v : Nat) : List (String × Nat) → List (String × Nat)
  | [] => [(k, v)]
  | p :: rest => if p.1 = k then (k, v) :: rest else p :: mapSet k v rest

/-- `AnimatedModel::AddAnimation` (`animated_model.hpp` lines 72-78):
`animationsMap[name] = animations.size()` then build and push the
animation. -/
def AddAnimation (a : RtAnimation) (m : AnimatedModelState) : AnimatedModelState :=
  { m with
    animationsMap := mapSet a.name m.animations.length m.animationsMap
    animations := m.animations ++ [a] }

/-- `AnimatedModel::SetSkeleton` (`animated_model.hpp` lines 64-70):
build the skeleton, record `num_joints()`, resize `jointMatrices` to it
(`std::vector::resize` value-initializes the new entries). -/
def SetSkeleton (numJoints : Nat) (m : AnimatedModelState) : AnimatedModelState :=
  { m with
    hasSkeleton := true
    numJoints := numJoints
    jointMatrices := List.replicate numJoints 0 }

/-- A freshly constructed `AnimatedModel()` (`animated_model.hpp` line 54):
every container empty, no skeleton, and `currentAnimation` — a plain
`unsigned int` member with no initializer — holding an indeterminate
value, passed here as the parameter `cur`. -/
def AnimatedModelInit (cur : Nat) : AnimatedModelState :=
  { hasSkeleton := false
    numJoints := 0
    animations := []
    animationsMap := []
    contextSize := 0
    currentAnimation := cur
    jointMatrices := [] }

/-- The lookup loop of `SetCurrentAnimation(const std::string&)`
(`animated_model.hpp` lines 137-139): iterate the whole map and assign
`currentAnimation = animationsMap[it->first]` on every key match. -/
def nameLoop (animName : String) (mp : List (String × Nat)) (cur : Nat) : Nat :=
  mp.foldl (fun acc p => if p.1 = animName then p.2 else acc) cur

/-- `AnimatedModel::SetCurrentAnimation(const std::string&)`
(`animated_model.hpp` lines 135-141).  After the loop the context is
resized to `animations[currentAnimation]->num_tracks()` unconditionally;
`none` models the undefined behaviour of that vector access when
`currentAnimation` is out of bounds. -/
def SetCurrentAnimationName (animName : String) (m : AnimatedModelState) :
    Option AnimatedModelState :=
  let cur := nameLoop animName m.animationsMap m.currentAnimation
  match m.animations.get? cur with
  | some anim => some { m with currentAnimation := cur, contextSize := anim.numTracks }
  | none => none

/-- The lookup loop of `SetCurrentAnimation(const unsigned int)`
(`animated_model.hpp` lines 147-149): on a value match it assigns
`currentAnimation = animationsMap[it->first]`, which is that same value. -/
def indexLoop (index : Nat) (mp : List (String × Nat)) (cur : Nat) : Nat :=
  mp.foldl (fun acc p => if p.2 = index then p.2 else acc) cur

/-- `AnimatedModel::SetCurrentAnimation(const unsigned int)`
(`animated_model.hpp` lines 143-152): guarded by
`index < animationsMap.size()`; otherwise the body does nothing at all. -/
def SetCurrentAnimationIndex (index : Nat) (m : AnimatedModelState) :
    Option AnimatedModelState :=
  if index < m.animationsMap.length then
    let cur := indexLoop index m.animationsMap m.currentAnimation
    match m.animations.get? cur with
    | some anim => some { m with currentAnimation := cur, contextSize := anim.numTracks }
    | none => none
  else some m

/-- Modelled from the spec: validation of the ozz `SamplingJob` (the
library internals are outside `src/`).  Spec section 4.3: sampling fails
"if the sampling context was not sized for the track count of the
animation"; the context passes when its allocated capacity covers the
track count. -/
def samplingJobOk (contextSize numTracks : Nat) : Bool :=
  numTracks ≤ contextSize

/-- Modelled from the spec: validation of the ozz `LocalToModelJob` (the
library internals are outside `src/`); it requires input and output spans
that cover the joints of the skeleton.  `SampleAnimation` allocates both
with `numJoints` entries, so in this call path the check always passes. -/
def localToModelJobOk (inputSize outputSize skeletonJoints : Nat) : Bool :=
  skeletonJoints ≤ inputSize && skeletonJoints ≤ outputSize

/-- `AnimatedModel::SampleAnimation` (`animated_model.hpp` lines 80-120):
advance the static clock, wrap it, then run the sampling job, the
local-to-model job, and only if both succeed overwrite `jointMatrices`.
`sample` stands for the numeric output of steps 1-3 as a function of the
ratio `animationTime / duration` handed to the sampling job; the claims
about this method are control-flow properties that hold for every such
function.  Each failing job prints one line to `std::cerr` and returns,
leaving `jointMatrices` untouched. -/
def SampleAnimation (sample : ℚ → List ℚ) (deltaTime : ℚ) (anim : RtAnimation)
    (w : World) : World :=
  let t := advanceClock w.animationTime deltaTime anim.duration
  if samplingJobOk w.model.contextSize anim.numTracks = false then
    { w with
      animationTime := t
      stderrLog := w.stderrLog ++ ["Failed to sample animation"] }
  else if localToModelJobOk w.model.numJoints w.model.numJoints w.model.numJoints = false then
    { w with
      animationTime := t
      stderrLog := w.stderrLog ++ ["Failed to convert local to model transforms"] }
  else
    { w with
      animationTime := t
      model := { w.model with jointMatrices := sample (t / anim.duration) } }

/-- `AnimatedModel::UpdateAnimation` (`animated_model.hpp` lines 122-126):
`if (!animations.empty() && skeleton) SampleAnimation(deltaTime,
*animations[currentAnimation], *skeleton);` — the function returns `void`.
`none` models the undefined behaviour of `animations[currentAnimation]`
when the index is out of bounds. -/
def UpdateAnimation (sample : ℚ → List ℚ) (deltaTime : ℚ) (w : World) : Option World :=
  if w.model.animations.isEmpty = false ∧ w.model.hasSkeleton = true then
    match w.model.animations.get? w.model.currentAnimation with
    | some anim => some (SampleAnimation sample deltaTime anim w)
    | none => none
  else some w

/-- `SetCurrentAnimation(name)` acting on the whole mutable state: the
body (`animated_model.hpp` lines 135-141) reads and writes only
`currentAnimation` and `context`; the static `animationTime` is local to
`SampleAnimation` and out of scope here, and nothing is printed. -/
def WSetCurrentAnimationName (animName : String) (w : World) : Option World :=
  (SetCurrentAnimationName animName w.model).map fun m => { w with model := m }

/-- `SetCurrentAnimation(index)` acting on the whole mutable state
(`animated_model.hpp` lines 143-152); like the by-name overload it cannot
touch the static clock and prints nothing. -/
def WSetCurrentAnimationIndex (index : Nat) (w : World) : Option World :=
  (SetCurrentAnimationIndex index w.model).map fun m => { w with model := m }

/-- Two coexisting `AnimatedModel` instances.  The `static float
animationTime` inside `SampleAnimation` is one variable for the whole
program, so the pair shares it; each instance keeps its own fields. -/
structure TwoModels where
  animationTime : ℚ
  modelA : AnimatedModelState
  modelB : AnimatedModelState
  stderrLog : List String

/-- `a.UpdateAnimation(deltaTime)` in a program holding two instances
`a` and `b`: the call runs on the fields of `a` and on the shared
static clock; `b` is not mentioned by the code. -/
def UpdateAnimationA (sample : ℚ → List ℚ) (deltaTime : ℚ) (w : TwoModels) :
    Option TwoModels :=
  (UpdateAnimation sample deltaTime ⟨w.animationTime, w.modelA, w.stderrLog⟩).map
    fun wr => ⟨wr.animationTime, wr.model, w.modelB, wr.stderrLog⟩

/-- The elapsed playback time an instance observes.  Every instance reads
the same `static float animationTime`, so this is a function of the
shared state alone — for instance `b` exactly as for instance `a`. -/
def elapsedPlayback (w : TwoModels) : ℚ := w.animationTime

/-- Sample animation used by the concrete scenarios: 2 seconds long,
3 tracks. -/
def runAnim : RtAnimation := { name := "run", duration := 2, numTracks := 3 }

/-- Model mid-playback: `"run"` loaded and selected (context sized to its
3 tracks). -/
def demoModel : AnimatedModelState :=
  { hasSkeleton := true
    numJoints := 1
    animations := [runAnim]
    animationsMap := [("run", 0)]
    contextSize := 3
    currentAnimation := 0
    jointMatrices := [0] }

/-- World mid-playback: the static clock has already advanced to 1.5 s. -/
def demoWorld : World := { animationTime := 3/2, model := demoModel, stderrLog := [] }

/-- Helper: a fold over map entries none of which carries the searched
name leaves the accumulator unchanged. -/
theorem nameLoop_of_absent (animName : String) (mp : List (String × Nat))
    (cur : Nat) (h : ∀ p ∈ mp, p.1 ≠ animName) : nameLoop animName mp cur = cur := by
  induction mp generalizing cur with
  | nil => rfl
  | cons p rest ih =>
    have hp : p.1 ≠ animName := h p (List.mem_cons_self p rest)
    have hrest : ∀ q ∈ rest, q.1 ≠ animName := fun q hq => h q (List.mem_cons_of_mem p hq)
    simp only [nameLoop, List.foldl_cons, if_neg hp] at *
    exact ih cur hrest

/-- Claim C1 counterexample: with the clock at 1.5 s mid-playback,
`SetCurrentAnimation("run")` (a successful by-name transition) leaves the
static clock at 1.5, and the first subsequent `UpdateAnimation(0.1)`
samples at ratio `1.6 / 2 = 0.8`, not at the ratio `0.05` that a clock
reset to 0 would give. -/
theorem C1_counterexample :
    (WSetCurrentAnimationName "run" demoWorld).map World.animationTime = some (3/2)
    ∧ (3/2 : ℚ) ≠ 0
    ∧ ((WSetCurrentAnimationName "run" demoWorld).bind
        (UpdateAnimation (fun r => [r]) (1/10))).map (fun w => w.model.jointMatrices)
        = some [4/5]
    ∧ (4/5 : ℚ) ≠ (0 + 1/10) / runAnim.duration := by
  refine ⟨?_, by norm_num, ?_, by norm_num [runAnim]⟩
  · simp [WSetCurrentAnimationName, SetCurrentAnimationName, nameLoop, demoWorld, demoModel,
      runAnim]
  · simp [WSetCurrentAnimationName, SetCurrentAnimationName, nameLoop, demoWorld, demoModel,
      runAnim, UpdateAnimation, SampleAnimation, samplingJobOk, localToModelJobOk,
      advanceClock, cfmod, ctrunc]
    norm_num

/-- Claim C1, amended: neither `SetCurrentAnimation` overload touches the
playback clock — the clock is a `static` local to `SampleAnimation`, so a
successful selection carries the previous elapsed time over unchanged
(the first subsequent advance starts from it, not from 0). -/
theorem C1_select_preserves_clock (animName : String) (index : Nat) (w w₁ w₂ : World) :
    (WSetCurrentAnimationName animName w = some w₁ → w₁.animationTime = w.animationTime)
    ∧ (WSetCurrentAnimationIndex index w = some w₂ → w₂.animationTime = w.animationTime) := by
  constructor
  · intro h
    obtain ⟨m, -, rfl⟩ := Option.map_eq_some'.mp h
    rfl
  · intro h
    obtain ⟨m, -, rfl⟩ := Option.map_eq_some'.mp h
    rfl

/-- Claim C1 witness: the amended theorem applied to the concrete
mid-playback world and both overloads. -/
theorem C1_select_preserves_clock_witness :
    (demoWorld.animationTime = demoWorld.animationTime)
    ∧ (demoWorld.animationTime = demoWorld.animationTime) :=
  ⟨(C1_select_preserves_clock "run" 0 demoWorld demoWorld demoWorld).1
      (by simp [WSetCurrentAnimationName, SetCurrentAnimationName, nameLoop, demoWorld,
        demoModel, runAnim]),
    (C1_select_preserves_clock "run" 0 demoWorld demoWorld demoWorld).2
      (by simp [WSetCurrentAnimationIndex, SetCurrentAnimationIndex, indexLoop, demoWorld,
        demoModel, runAnim])⟩

/-- Two instances: `a` is the mid-playback demo model, `b` is a freshly
constructed second instance (indeterminate `currentAnimation` taken as 5);
the static clock they share starts at 0. -/
def twoDemo : TwoModels :=
  { animationTime := 0
    modelA := demoModel
    modelB := AnimatedModelInit 5
    stderrLog := [] }

/-- Claim C2 counterexample: advancing instance `a` by 1 s moves the one
`static float animationTime` from 0 to 1, and that same variable is the
elapsed playback time instance `b` observes — so advancing `a` changed
the elapsed time of `b`. -/
theorem C2_counterexample :
    elapsedPlayback twoDemo = 0
    ∧ (UpdateAnimationA (fun r => [r]) 1 twoDemo).map elapsedPlayback = some 1
    ∧ (1 : ℚ) ≠ 0 := by
  refine ⟨rfl, ?_, by norm_num⟩
  simp [UpdateAnimationA, UpdateAnimation, SampleAnimation, samplingJobOk,
    localToModelJobOk, advanceClock, twoDemo, demoModel, runAnim, elapsedPlayback]

/-- Claim C2, amended: the program has a single playback clock (the
`static` inside `SampleAnimation`) shared by every `AnimatedModel`
instance.  Advancing `a` leaves the private fields of `b` untouched, but
it moves the shared clock — which is exactly the elapsed playback time
`b` observes — to the advanced value. -/
theorem C2_shared_clock (sample : ℚ → List ℚ) (deltaTime : ℚ) (w : TwoModels)
    (anim : RtAnimation)
    (hne : w.modelA.animations.isEmpty = false)
    (hsk : w.modelA.hasSkeleton = true)
    (hget : w.modelA.animations.get? w.modelA.currentAnimation = some anim) :
    (UpdateAnimationA sample deltaTime w).map TwoModels.modelB = some w.modelB
    ∧ (UpdateAnimationA sample deltaTime w).map elapsedPlayback
        = some (advanceClock w.animationTime deltaTime anim.duration) := by
  have hget2 : w.modelA.animations[w.modelA.currentAnimation]? = some anim := by
    simpa [List.get?_eq_getElem?] using hget
  rcases hs : samplingJobOk w.modelA.contextSize anim.numTracks with _ | _ <;>
    rcases hl : localToModelJobOk w.modelA.numJoints w.modelA.numJoints w.modelA.numJoints
      with _ | _ <;>
    simp [UpdateAnimationA, UpdateAnimation, SampleAnimation, hne, hsk, hget2, hs, hl,
      elapsedPlayback]

/-- Claim C2 witness: the amended theorem applied to the concrete
two-instance world. -/
theorem C2_shared_clock_witness :
    (UpdateAnimationA (fun r => [r]) 1 twoDemo).map TwoModels.modelB = some twoDemo.modelB
    ∧ (UpdateAnimationA (fun r => [r]) 1 twoDemo).map elapsedPlayback
        = some (advanceClock twoDemo.animationTime 1 runAnim.duration) :=
  C2_shared_clock (fun r => [r]) 1 twoDemo runAnim
    (by simp [twoDemo, demoModel, runAnim])
    (by simp [twoDemo, demoModel])
    (by simp [twoDemo, demoModel, runAnim])

/-- Claim C3 counterexample: with duration 2.0, advancing the clock from
0 by exactly 2.0 leaves it at 2.0 — the guard is a strict `>`, so a clock
equal to the duration is not wrapped and the post-advance clock is not in
`[0, duration)`. -/
theorem C3_counterexample :
    advanceClock 0 2 2 = 2 ∧ ¬ advanceClock 0 2 2 < 2 := by
  norm_num [advanceClock]

/-- Claim C3, amended: for a nonnegative clock, nonnegative `deltaTime`
and positive duration, the post-advance clock lies in the closed interval
`[0, duration]` (the value `duration` itself is reachable because the
wrap triggers only on strict excess); and the concrete wrap-around
scenario holds: with duration 2.0, advancing 1.2 then 1.2 yields
`2.4 mod 2.0 = 0.4`, not 2.4. -/
theorem C3_clock_wrap (clock deltaTime duration : ℚ) (h0 : 0 ≤ clock)
    (h1 : 0 ≤ deltaTime) (h2 : 0 < duration) :
    (0 ≤ advanceClock clock deltaTime duration
      ∧ advanceClock clock deltaTime duration ≤ duration)
    ∧ advanceClock (advanceClock 0 (6/5) 2) (6/5) 2 = 2/5 := by
  constructor
  · rw [advanceClock]
    by_cases h : duration < clock + deltaTime
    · rw [if_pos h]
      have hb := cfmod_nonneg_lt (clock + deltaTime) duration (by linarith) h2
      exact ⟨hb.1, le_of_lt hb.2⟩
    · rw [if_neg h]
      exact ⟨by linarith, by linarith [not_lt.mp h]⟩
  · have hfloor : (⌊(6/5 : ℚ)⌋ : ℤ) = 1 := by norm_num
    norm_num [advanceClock, cfmod, ctrunc, hfloor]

/-- Claim C3 witness: the amended theorem applied at clock 0,
deltaTime 1, duration 2. -/
theorem C3_clock_wrap_witness :
    ((0 ≤ advanceClock 0 1 2 ∧ advanceClock 0 1 2 ≤ 2)
      ∧ advanceClock (advanceClock 0 (6/5) 2) (6/5) 2 = 2/5) :=
  C3_clock_wrap 0 1 2 (by norm_num) (by norm_num) (by norm_num)

/-- Model whose sampling context was never sized (fresh context capacity
0, as before any `SetCurrentAnimation` call), with prior skinning
matrices 7 and 9 retained from earlier. -/
def failModel : AnimatedModelState :=
  { hasSkeleton := true
    numJoints := 2
    animations := [runAnim]
    animationsMap := [("run", 0)]
    contextSize := 0
    currentAnimation := 0
    jointMatrices := [7, 9] }

/-- World around `failModel` with the static clock at 0. -/
def failWorld : World := { animationTime := 0, model := failModel, stderrLog := [] }

/-- Claim C4 counterexample: when the sampling job fails,
`UpdateAnimation` — a `void` member function — hands its caller no result
or error value at all: the entire caller-visible object state comes back
unchanged (`jointMatrices` included), the static clock has advanced, and
the only trace of the failure is a line on `std::cerr`.  The no-partial-
write half of the claim holds; the signalled-to-the-caller half does
not. -/
theorem C4_counterexample :
    UpdateAnimation (fun r => [r]) 1 failWorld
      = some { animationTime := 1
               model := failModel
               stderrLog := ["Failed to sample animation"] }
    ∧ (UpdateAnimation (fun r => [r]) 1 failWorld).map World.model
        = some failWorld.model := by
  constructor <;>
    simp [UpdateAnimation, SampleAnimation, samplingJobOk, localToModelJobOk,
      advanceClock, failWorld, failModel, runAnim]

/-- Claim C4, amended: whenever the sampling job rejects its inputs,
`UpdateAnimation` leaves every field of the model unchanged — the
retained `jointMatrices` keep their prior contents with no partial
results — but the failure is reported only as a line printed to
`std::cerr`; the `void` function returns nothing, so the caller receives
no result or error value. -/
theorem C4_failure_keeps_matrices (sample : ℚ → List ℚ) (deltaTime : ℚ) (w : World)
    (anim : RtAnimation)
    (hne : w.model.animations.isEmpty = false)
    (hsk : w.model.hasSkeleton = true)
    (hget : w.model.animations.get? w.model.currentAnimation = some anim)
    (hfail : samplingJobOk w.model.contextSize anim.numTracks = false) :
    UpdateAnimation sample deltaTime w
      = some { w with
               animationTime := advanceClock w.animationTime deltaTime anim.duration
               stderrLog := w.stderrLog ++ ["Failed to sample animation"] } := by
  have hget2 : w.model.animations[w.model.currentAnimation]? = some anim := by
    simpa [List.get?_eq_getElem?] using hget
  simp [UpdateAnimation, SampleAnimation, hne, hsk, hget2, hfail]

/-- Claim C4 witness: the amended theorem applied to the concrete
unsized-context world. -/
theorem C4_failure_keeps_matrices_witness :
    UpdateAnimation (fun r => [r]) 1 failWorld
      = some { failWorld with
               animationTime := advanceClock failWorld.animationTime 1 runAnim.duration
               stderrLog := failWorld.stderrLog ++ ["Failed to sample animation"] } :=
  C4_failure_keeps_matrices (fun r => [r]) 1 failWorld runAnim
    (by simp [failWorld, failModel, runAnim])
    (by simp [failWorld, failModel])
    (by simp [failWorld, failModel, runAnim])
    (by simp [failWorld, failModel, runAnim, samplingJobOk])

/-- Claim C5 counterexample: `SetCurrentAnimation("fly")` with a name
that identifies no owned animation returns the state bit-for-bit
unchanged and prints nothing — the call is indistinguishable from not
having been made, so the caller is not notified of the failed lookup. -/
theorem C5_counterexample :
    (∀ p ∈ demoWorld.model.animationsMap, p.1 ≠ "fly")
    ∧ WSetCurrentAnimationName "fly" demoWorld = some demoWorld
    ∧ (WSetCurrentAnimationName "fly" demoWorld).map World.stderrLog = some [] := by
  refine ⟨?_, ?_, ?_⟩
  · intro p hp
    simp [demoWorld, demoModel] at hp
    simp [hp]
  · simp [WSetCurrentAnimationName, SetCurrentAnimationName, nameLoop, demoWorld,
      demoModel, runAnim]
  · simp [WSetCurrentAnimationName, SetCurrentAnimationName, nameLoop, demoWorld,
      demoModel, runAnim]

/-- Claim C5, amended: on an unknown name the by-name overload keeps the
selected animation unchanged but still resizes the sampling context to
the track count of the currently selected animation, and on an
out-of-range index the by-index overload changes nothing; neither
overload notifies the caller in any way (`void` return, nothing
printed). -/
theorem C5_unknown_lookup (animName : String) (index : Nat) (m : AnimatedModelState)
    (anim : RtAnimation)
    (hname : ∀ p ∈ m.animationsMap, p.1 ≠ animName)
    (hcur : m.animations.get? m.currentAnimation = some anim)
    (hidx : m.animationsMap.length ≤ index) :
    SetCurrentAnimationName animName m = some { m with contextSize := anim.numTracks }
    ∧ SetCurrentAnimationIndex index m = some m := by
  constructor
  · rw [SetCurrentAnimationName, nameLoop_of_absent animName m.animationsMap
      m.currentAnimation hname, hcur]
  · rw [SetCurrentAnimationIndex, if_neg (not_lt.mpr hidx)]

/-- Claim C5 witness: the amended theorem applied to the demo model, the
unknown name `"fly"` and the out-of-range index 1. -/
theorem C5_unknown_lookup_witness :
    SetCurrentAnimationName "fly" demoModel
      = some { demoModel with contextSize := runAnim.numTracks }
    ∧ SetCurrentAnimationIndex 1 demoModel = some demoModel :=
  C5_unknown_lookup "fly" 1 demoModel runAnim
    (by intro p hp; simp [demoModel] at hp; simp [hp])
    (by simp [demoModel, runAnim])
    (by simp [demoModel])

/-- Model reached by loading only: skeleton set, one animation added,
`SetCurrentAnimation` never called.  The C++ `currentAnimation` member is
still uninitialized at this point; 0 is taken as its indeterminate
value. -/
def noSelModel : AnimatedModelState :=
  AddAnimation runAnim (SetSkeleton 2 (AnimatedModelInit 0))

/-- World around `noSelModel`: static clock 0, nothing printed yet. -/
def noSelWorld : World := { animationTime := 0, model := noSelModel, stderrLog := [] }

/-- Claim C6 counterexample: in a model that has loaded animations and a
skeleton but has never had a successful `selectAnimation`, advancing by
1 s is not a no-op: the guard of `UpdateAnimation` only checks
`!animations.empty() && skeleton`, so it calls `SampleAnimation`, which
advances the static clock to 1 and (the context being unsized) prints a
sampling failure — observable state changes. -/
theorem C6_counterexample :
    UpdateAnimation (fun r => [r, r]) 1 noSelWorld
      = some { animationTime := 1
               model := noSelModel
               stderrLog := ["Failed to sample animation"] }
    ∧ UpdateAnimation (fun r => [r, r]) 1 noSelWorld ≠ some noSelWorld := by
  constructor
  · simp [UpdateAnimation, SampleAnimation, samplingJobOk, localToModelJobOk,
      advanceClock, noSelWorld, noSelModel, AddAnimation, SetSkeleton,
      AnimatedModelInit, mapSet, runAnim]
  · intro h
    rw [UpdateAnimation] at h
    simp [SampleAnimation, samplingJobOk, localToModelJobOk, advanceClock, noSelWorld,
      noSelModel, AddAnimation, SetSkeleton, AnimatedModelInit, mapSet, runAnim] at h

/-- Claim C6, amended: `UpdateAnimation` is a no-op exactly under its own
guard — no animations loaded, or no skeleton.  The code keeps no
`NoAnimationSelected` state: once animations and a skeleton are loaded,
advancing samples at the indeterminate `currentAnimation` index even if
`selectAnimation` was never called (see the counterexample). -/
theorem C6_advance_guard (sample : ℚ → List ℚ) (deltaTime : ℚ) (w : World)
    (h : w.model.animations = [] ∨ w.model.hasSkeleton = false) :
    UpdateAnimation sample deltaTime w = some w := by
  rw [UpdateAnimation, if_neg]
  rintro ⟨hne, hsk⟩
  rcases h with h | h
  · rw [h] at hne
    simp at hne
  · rw [h] at hsk
    simp at hsk

/-- Claim C6 witness: the amended theorem applied to a freshly
constructed model with nothing loaded. -/
theorem C6_advance_guard_witness :
    UpdateAnimation (fun r => [r]) 1
      { animationTime := 0, model := AnimatedModelInit 3, stderrLog := [] }
      = some { animationTime := 0, model := AnimatedModelInit 3, stderrLog := [] } :=
  C6_advance_guard (fun r => [r]) 1
    { animationTime := 0, model := AnimatedModelInit 3, stderrLog := [] }
    (Or.inl (by simp [AnimatedModelInit]))

end AnimModel

namespace SkinModel

/-- Componentwise rational stand-in for `aiVector3D`. -/
structure Vec3 where
  x : ℚ
  y : ℚ
  z : ℚ
deriving DecidableEq

/-- Vector addition, as in `startPosition + factor * delta`. -/
def vadd (a b : Vec3) : Vec3 := ⟨a.x + b.x, a.y + b.y, a.z + b.z⟩

/-- Vector subtraction, as in `delta = endPosition - startPosition`. -/
def vsub (a b : Vec3) : Vec3 := ⟨a.x - b.x, a.y - b.y, a.z - b.z⟩

/-- Scalar multiple, as in `factor * delta`. -/
def vsmul (f : ℚ) (a : Vec3) : Vec3 := ⟨f * a.x, f * a.y, f * a.z⟩

/-- One `aiVectorKey` of a position channel: `mTime` and `mValue`
(`skinned_model.hpp`; rotation and scaling keys are traversed by the
structurally identical `findRotation`/`findScaling` and
`calcInterpolatedRotation`/`calcInterpolatedScaling`). -/
structure VecKey where
  time : ℚ
  value : Vec3

instance : Inhabited VecKey := ⟨⟨0, ⟨0, 0, 0⟩⟩⟩

/-- The search loop of `SkinnedModel::findPosition` (`skinned_model.hpp`
lines 264-266): walk `index` from 0 through `numKeys - 2` and return the
first `index` with `animationTime < keys[index + 1].mTime`; `none` marks
falling through the loop. -/
def findPosAux (t : ℚ) : List VecKey → Option Nat
  | _ :: k1 :: rest =>
    if t < k1.time then some 0 else (findPosAux t (k1 :: rest)).map (· + 1)
  | _ => none

/-- `SkinnedModel::findPosition` (`skinned_model.hpp` lines 261-269): the
found index, or 0 after the fall-through branch that also prints
"Position animationTime is out of bound" to `std::cerr`. -/
def findPosition (t : ℚ) (keys : List VecKey) : Nat :=
  (findPosAux t keys).getD 0

/-- Whether `findPosition` took the fall-through branch (and therefore
printed its out-of-bound line). -/
def findPositionOutOfBound (t : ℚ) (keys : List VecKey) : Bool :=
  (findPosAux t keys).isNone

/-- The interpolation factor computed by
`SkinnedModel::calcInterpolatedPosition` (`skinned_model.hpp` lines
302-303): `(animationTime - keys[i].mTime) / (keys[i+1].mTime -
keys[i].mTime)` at `i = findPosition(animationTime)`.  It is used as
computed — nothing clamps it. -/
def positionFactor (t : ℚ) (keys : List VecKey) : ℚ :=
  (t - (keys.getD (findPosition t keys) default).time)
    / ((keys.getD (findPosition t keys + 1) default).time
        - (keys.getD (findPosition t keys) default).time)

/-- Condition of the factor diagnostic in `calcInterpolatedPosition`
(`skinned_model.hpp` line 304): `factor < 0.0f && factor > 1.0f` — a
conjunction, as written in the source. -/
def factorOutOfBoundLog (f : ℚ) : Bool :=
  decide (f < 0) && decide (1 < f)

/-- `SkinnedModel::calcInterpolatedPosition` (`skinned_model.hpp` lines
291-310): single-key channels freeze at the only key; otherwise linearly
interpolate between `keys[i]` and `keys[i+1]` with the unclamped factor.
`none` models the empty-channel case, where the `assert` on the key count
fails.  Out-of-bounds `getD` accesses never happen: the index returned by
`findPosition` is at most `numKeys - 2`. -/
def calcInterpolatedPosition (t : ℚ) (keys : List VecKey) : Option Vec3 :=
  match keys with
  | [] => none
  | [k] => some k.value
  | _ :: _ :: _ =>
    some (vadd (keys.getD (findPosition t keys) default).value
      (vsmul (positionFactor t keys)
        (vsub (keys.getD (findPosition t keys + 1) default).value
          (keys.getD (findPosition t keys) default).value)))

/-- Helper: in a strictly time-sorted key list every key time is at most
the last key time. -/
theorem time_le_getLast :
    ∀ (keys : List VecKey) (hne : keys ≠ [])
      (_ : List.Chain' (fun a b => a.time < b.time) keys)
      (k : VecKey), k ∈ keys → k.time ≤ (keys.getLast hne).time := by
  intro keys
  induction keys with
  | nil => intro hne; exact absurd rfl hne
  | cons k0 tl ih =>
    intro hne hsort k hk
    cases tl with
    | nil =>
      rcases List.mem_singleton.mp hk with rfl
      exact le_refl _
    | cons k1 tl2 =>
      have hsort2 : List.Chain' (fun a b => a.time < b.time) (k1 :: tl2) := hsort.tail
      have hlast : (k0 :: k1 :: tl2).getLast hne = (k1 :: tl2).getLast (List.cons_ne_nil _ _) :=
        List.getLast_cons (List.cons_ne_nil _ _)
      rcases List.mem_cons.mp hk with rfl | hk2
      · have h01 : k.time < k1.time := (List.chain'_cons.mp hsort).1
        have h1l : k1.time ≤ ((k1 :: tl2).getLast (List.cons_ne_nil _ _)).time :=
          ih (List.cons_ne_nil _ _) hsort2 k1 (List.mem_cons_self _ _)
        rw [hlast]
        exact le_of_lt (lt_of_lt_of_le h01 h1l)
      · rw [hlast]
        exact ih (List.cons_ne_nil _ _) hsort2 k hk2

/-- Helper: when the query time is at or past every key time, the search
loop falls through. -/
theorem findPosAux_eq_none_of_ge (t : ℚ) :
    ∀ keys : List VecKey, (∀ k ∈ keys, k.time ≤ t) → findPosAux t keys = none := by
  intro keys
  induction keys with
  | nil => intro _; rfl
  | cons k0 tl ih =>
    intro hall
    cases tl with
    | nil => rfl
    | cons k1 tl2 =>
      have h1 : k1.time ≤ t := hall k1 (List.mem_cons_of_mem _ (List.mem_cons_self _ _))
      have htl : ∀ k ∈ k1 :: tl2, k.time ≤ t := fun k hk => hall k (List.mem_cons_of_mem _ hk)
      rw [findPosAux, if_neg (not_lt.mpr h1), ih htl]
      rfl

/-- Helper: for a query time inside the key range the search loop finds
the bracketing pair. -/
theorem findPosAux_bracket (t : ℚ) :
    ∀ (rest : List VecKey) (k0 k1 : VecKey),
      List.Chain' (fun a b => a.time < b.time) (k0 :: k1 :: rest) →
      k0.time ≤ t →
      t < (((k0 :: k1 :: rest)).getLast (List.cons_ne_nil _ _)).time →
      ∃ i, findPosAux t (k0 :: k1 :: rest) = some i
        ∧ i + 1 < (k0 :: k1 :: rest).length
        ∧ ((k0 :: k1 :: rest).getD i default).time ≤ t
        ∧ t < ((k0 :: k1 :: rest).getD (i + 1) default).time := by
  intro rest
  induction rest with
  | nil =>
    intro k0 k1 _ hle hlt
    refine ⟨0, ?_, by simp, by simpa using hle, ?_⟩
    · rw [findPosAux, if_pos (by simpa using hlt)]
    · simpa using hlt
  | cons k2 rest2 ih =>
    intro k0 k1 hsort hle hlt
    by_cases hbr : t < k1.time
    · exact ⟨0, by rw [findPosAux, if_pos hbr], by simp, by simpa using hle, by simpa using hbr⟩
    · have h1 : k1.time ≤ t := not_lt.mp hbr
      have hlast : ((k0 :: k1 :: k2 :: rest2).getLast (List.cons_ne_nil _ _)).time
          = ((k1 :: k2 :: rest2).getLast (List.cons_ne_nil _ _)).time := by
        rw [List.getLast_cons (List.cons_ne_nil _ _)]
      obtain ⟨i, haux, hlen, hlo, hhi⟩ :=
        ih k1 k2 hsort.tail h1 (by rw [← hlast]; exact hlt)
      refine ⟨i + 1, ?_, ?_, ?_, ?_⟩
      · rw [findPosAux, if_neg hbr, haux]
        rfl
      · simpa using Nat.succ_lt_succ hlen
      · simpa using hlo
      · simpa using hhi

/-- Claim C7 counterexample: keys at times 0, 1, 2 queried at time 5 (past
the final key).  The code does not clamp to the last pair — it falls back
to the FIRST pair (index 0, not index 1), and the factor
`(5 - 0) / (1 - 0) = 5` is used without being clamped to `[0, 1]`,
extrapolating the y-value to 5 instead of holding a value within the key
range. -/
theorem C7_counterexample :
    findPosition 5 [⟨0, ⟨0, 0, 0⟩⟩, ⟨1, ⟨0, 1, 0⟩⟩, ⟨2, ⟨0, 2, 0⟩⟩] = 0
    ∧ ([⟨0, ⟨0, 0, 0⟩⟩, ⟨1, ⟨0, 1, 0⟩⟩, ⟨2, ⟨0, 2, 0⟩⟩] : List VecKey).length - 2 = 1
    ∧ findPositionOutOfBound 5 [⟨0, ⟨0, 0, 0⟩⟩, ⟨1, ⟨0, 1, 0⟩⟩, ⟨2, ⟨0, 2, 0⟩⟩] = true
    ∧ positionFactor 5 [⟨0, ⟨0, 0, 0⟩⟩, ⟨1, ⟨0, 1, 0⟩⟩, ⟨2, ⟨0, 2, 0⟩⟩] = 5
    ∧ ¬ positionFactor 5 [⟨0, ⟨0, 0, 0⟩⟩, ⟨1, ⟨0, 1, 0⟩⟩, ⟨2, ⟨0, 2, 0⟩⟩] ≤ 1
    ∧ calcInterpolatedPosition 5 [⟨0, ⟨0, 0, 0⟩⟩, ⟨1, ⟨0, 1, 0⟩⟩, ⟨2, ⟨0, 2, 0⟩⟩]
        = some ⟨0, 5, 0⟩ := by
  refine ⟨?_, by simp, ?_, ?_, ?_, ?_⟩ <;>
    norm_num [findPosition, findPositionOutOfBound, findPosAux, positionFactor,
      calcInterpolatedPosition, vadd, vsub, vsmul]

/-- Claim C7, amended: for a strictly time-sorted channel with at least
two keys the code picks the true bracketing pair and an unclamped factor
that happens to lie in `[0, 1)` — but only for query times inside the key
range.  At or past the final key time it does NOT clamp to the last pair:
it falls back to index 0 (printing the out-of-bound line), and the factor
is never clamped — the diagnostic guard `factor < 0 && factor > 1` is
unsatisfiable, and the returned value is the raw linear extrapolation of
the selected pair with the raw factor. -/
theorem C7_channel_eval (t : ℚ) (k0 k1 : VecKey) (rest : List VecKey)
    (hsort : List.Chain' (fun a b => a.time < b.time) (k0 :: k1 :: rest)) :
    (k0.time ≤ t →
      t < ((k0 :: k1 :: rest).getLast (List.cons_ne_nil _ _)).time →
      findPosition t (k0 :: k1 :: rest) + 1 < (k0 :: k1 :: rest).length
      ∧ ((k0 :: k1 :: rest).getD (findPosition t (k0 :: k1 :: rest)) default).time ≤ t
      ∧ t < ((k0 :: k1 :: rest).getD (findPosition t (k0 :: k1 :: rest) + 1) default).time
      ∧ 0 ≤ positionFactor t (k0 :: k1 :: rest)
      ∧ positionFactor t (k0 :: k1 :: rest) < 1)
    ∧ (((k0 :: k1 :: rest).getLast (List.cons_ne_nil _ _)).time ≤ t →
      findPosition t (k0 :: k1 :: rest) = 0
      ∧ findPositionOutOfBound t (k0 :: k1 :: rest) = true)
    ∧ factorOutOfBoundLog (positionFactor t (k0 :: k1 :: rest)) = false
    ∧ calcInterpolatedPosition t (k0 :: k1 :: rest)
        = some (vadd ((k0 :: k1 :: rest).getD (findPosition t (k0 :: k1 :: rest)) default).value
            (vsmul (positionFactor t (k0 :: k1 :: rest))
              (vsub ((k0 :: k1 :: rest).getD (findPosition t (k0 :: k1 :: rest) + 1) default).value
                ((k0 :: k1 :: rest).getD (findPosition t (k0 :: k1 :: rest)) default).value))) := by
  refine ⟨?_, ?_, ?_, rfl⟩
  · intro hle hlt
    obtain ⟨i, haux, hlen, hlo, hhi⟩ := findPosAux_bracket t rest k0 k1 hsort hle hlt
    have hidx : findPosition t (k0 :: k1 :: rest) = i := by
      rw [findPosition, haux]
      rfl
    have hd : ((k0 :: k1 :: rest).getD i default).time
        < ((k0 :: k1 :: rest).getD (i + 1) default).time := lt_of_le_of_lt hlo hhi
    refine ⟨by rw [hidx]; exact hlen, by rw [hidx]; exact hlo, by rw [hidx]; exact hhi, ?_, ?_⟩
    · rw [positionFactor, hidx]
      exact div_nonneg (by linarith) (by linarith)
    · rw [positionFactor, hidx]
      rw [div_lt_one (by linarith)]
      linarith
  · intro hge
    have hall : ∀ k ∈ k0 :: k1 :: rest, k.time ≤ t := fun k hk =>
      le_trans (time_le_getLast (k0 :: k1 :: rest) (List.cons_ne_nil _ _) hsort k hk) hge
    have hnone := findPosAux_eq_none_of_ge t (k0 :: k1 :: rest) hall
    constructor
    · rw [findPosition, hnone]
      rfl
    · rw [findPositionOutOfBound, hnone]
      rfl
  · rw [factorOutOfBoundLog]
    by_cases hf : positionFactor t (k0 :: k1 :: rest) < 0
    · have : ¬ 1 < positionFactor t (k0 :: k1 :: rest) := by linarith
      simp [this]
    · simp [hf]

/-- Claim C7 witness: the amended theorem applied to the three-key
channel at the in-range time 1/2 and at the out-of-range time 5. -/
theorem C7_channel_eval_witness :
    (findPosition (1/2) [⟨0, ⟨0, 0, 0⟩⟩, ⟨1, ⟨0, 1, 0⟩⟩, ⟨2, ⟨0, 2, 0⟩⟩] + 1
        < ([⟨0, ⟨0, 0, 0⟩⟩, ⟨1, ⟨0, 1, 0⟩⟩, ⟨2, ⟨0, 2, 0⟩⟩] : List VecKey).length
      ∧ (([⟨0, ⟨0, 0, 0⟩⟩, ⟨1, ⟨0, 1, 0⟩⟩, ⟨2, ⟨0, 2, 0⟩⟩] : List VecKey).getD
          (findPosition (1/2) [⟨0, ⟨0, 0, 0⟩⟩, ⟨1, ⟨0, 1, 0⟩⟩, ⟨2, ⟨0, 2, 0⟩⟩]) default).time
          ≤ 1/2
      ∧ (1/2 : ℚ) < (([⟨0, ⟨0, 0, 0⟩⟩, ⟨1, ⟨0, 1, 0⟩⟩, ⟨2, ⟨0, 2, 0⟩⟩] : List VecKey).getD
          (findPosition (1/2) [⟨0, ⟨0, 0, 0⟩⟩, ⟨1, ⟨0, 1, 0⟩⟩, ⟨2, ⟨0, 2, 0⟩⟩] + 1)
          default).time
      ∧ 0 ≤ positionFactor (1/2) [⟨0, ⟨0, 0, 0⟩⟩, ⟨1, ⟨0, 1, 0⟩⟩, ⟨2, ⟨0, 2, 0⟩⟩]
      ∧ positionFactor (1/2) [⟨0, ⟨0, 0, 0⟩⟩, ⟨1, ⟨0, 1, 0⟩⟩, ⟨2, ⟨0, 2, 0⟩⟩] < 1)
    ∧ (findPosition 6 [⟨0, ⟨0, 0, 0⟩⟩, ⟨1, ⟨0, 1, 0⟩⟩, ⟨2, ⟨0, 2, 0⟩⟩] = 0
      ∧ findPositionOutOfBound 6 [⟨0, ⟨0, 0, 0⟩⟩, ⟨1, ⟨0, 1, 0⟩⟩, ⟨2, ⟨0, 2, 0⟩⟩] = true) :=
  ⟨(C7_channel_eval (1/2) ⟨0, ⟨0, 0, 0⟩⟩ ⟨1, ⟨0, 1, 0⟩⟩ [⟨2, ⟨0, 2, 0⟩⟩]
      (by norm_num [List.chain'_cons])).1 (by norm_num) (by norm_num [List.getLast]),
    (C7_channel_eval 6 ⟨0, ⟨0, 0, 0⟩⟩ ⟨1, ⟨0, 1, 0⟩⟩ [⟨2, ⟨0, 2, 0⟩⟩]
      (by norm_num [List.chain'_cons])).2.1 (by norm_num [List.getLast])⟩

/-- Header data of one `aiAnimation` clip as `SkinnedModel` reads it:
`mTicksPerSecond` and `mDuration`. -/
structure AiAnimation where
  mTicksPerSecond : ℚ
  mDuration : ℚ

/-- The animation-timing fields of `class SkinnedModel`
(`skinned_model.hpp` lines 134-138). -/
structure SkinnedModelState where
  hasAnimations : Bool
  numAnimations : Nat
  currentAnimation : Nat
  ticksPerSecond : ℚ
  animDuration : ℚ

/-- `SkinnedModel::setAnimParams` (`skinned_model.hpp` lines 403-408):
`ticksPerSecond = mTicksPerSecond != 0.0 ? mTicksPerSecond : 25.0f` and
`animDuration = mDuration`, read from
`scene->mAnimations[currentAnimation]`; `none` models that access when
the index is out of bounds (e.g. a scene without animations). -/
def setAnimParams (anims : List AiAnimation) (m : SkinnedModelState) :
    Option SkinnedModelState :=
  match anims.get? m.currentAnimation with
  | some a =>
    some { m with
           ticksPerSecond := if a.mTicksPerSecond ≠ 0 then a.mTicksPerSecond else 25
           animDuration := a.mDuration }
  | none => none

/-- `SkinnedModel::SetCurrentAnimation` (`skinned_model.hpp` lines 62-69):
guard `hasAnimations && animation >= 0 && animation < numAnimations` (the
`>= 0` is vacuous for the unsigned index), then store the index and call
`setAnimParams`. -/
def SetCurrentAnimation (anims : List AiAnimation) (animation : Nat)
    (m : SkinnedModelState) : Option SkinnedModelState :=
  if m.hasAnimations = true ∧ animation < m.numAnimations then
    setAnimParams anims { m with currentAnimation := animation }
  else some m

/-- Animation-parameter tail of `SkinnedModel::loadModel`
(`skinned_model.hpp` lines 39-43 and 140-157): the constructor
initializes `currentAnimation(0)` and `animDuration(0.0f)`; `loadModel`
sets `hasAnimations` and `numAnimations` from the scene and ends by
calling `setAnimParams()`.  `ticksPerSecond` has no initializer before
that first call; `tps0` stands for its indeterminate value. -/
def loadModelParams (anims : List AiAnimation) (tps0 : ℚ) : Option SkinnedModelState :=
  setAnimParams anims
    { hasAnimations := !anims.isEmpty
      numAnimations := anims.length
      currentAnimation := 0
      ticksPerSecond := tps0
      animDuration := 0 }

/-- Claim C10: whenever the selected clip reports `mTicksPerSecond = 0`,
the stored `ticksPerSecond` silently becomes 25 — on a successful
`SetCurrentAnimation` (the only kind that reaches `setAnimParams`) and on
load, whose final step is the same `setAnimParams` call at the initial
index 0.  Nothing is printed and no other field records the
substitution. -/
theorem C10_tps_default (anims : List AiAnimation) (m : SkinnedModelState)
    (idx : Nat) (a a0 : AiAnimation) (tps0 : ℚ)
    (hhas : m.hasAnimations = true) (hidx : idx < m.numAnimations)
    (hget : anims.get? idx = some a) (htps : a.mTicksPerSecond = 0)
    (hget0 : anims.get? 0 = some a0) (htps0 : a0.mTicksPerSecond = 0) :
    (SetCurrentAnimation anims idx m).map SkinnedModelState.ticksPerSecond = some 25
    ∧ (loadModelParams anims tps0).map SkinnedModelState.ticksPerSecond = some 25 := by
  have hget2 : anims[idx]? = some a := by simpa [List.get?_eq_getElem?] using hget
  have hget02 : anims[0]? = some a0 := by simpa [List.get?_eq_getElem?] using hget0
  constructor
  · rw [SetCurrentAnimation, if_pos ⟨hhas, hidx⟩, setAnimParams]
    simp [hget2, htps]
  · rw [loadModelParams, setAnimParams]
    simp [hget02, htps0]

/-- Claim C10 witness: the theorem applied to a one-clip scene whose clip
reports 0 ticks per second. -/
theorem C10_tps_default_witness :
    (SetCurrentAnimation [⟨0, 10⟩] 0
        { hasAnimations := true, numAnimations := 1, currentAnimation := 0,
          ticksPerSecond := 3, animDuration := 7 }).map SkinnedModelState.ticksPerSecond
      = some 25
    ∧ (loadModelParams [⟨0, 10⟩] 3).map SkinnedModelState.ticksPerSecond = some 25 :=
  C10_tps_default [⟨0, 10⟩]
    { hasAnimations := true, numAnimations := 1, currentAnimation := 0,
      ticksPerSecond := 3, animDuration := 7 }
    0 ⟨0, 10⟩ ⟨0, 10⟩ 3 rfl (by norm_num) rfl rfl rfl rfl

end SkinModel

namespace GLTFLoader

/-- `GLTFLoader::MAX_BONE_INFLUENCE` (`animated_model.hpp` line 188); the
same constant is a macro in `skinned_model.hpp` line 111. -/
def MAX_BONE_INFLUENCE : Nat := 4

/-- The influence-placement loop shared by `GLTFLoader::ExtractMeshes`
(`animated_model.hpp` lines 444-452) and `SkinnedModel::processMesh`
(`skinned_model.hpp` lines 214-222): scan the bone slots of one vertex in
order and write `(boneID, weight)` into the first slot whose weight is
still 0.0, then `break`; when no slot qualifies the influence is dropped
and the vertex is left as it was.  A slot is the pair
`(BoneIDs[g], BoneWeights[g])`. -/
def setVertexBoneData (boneID : ℤ) (weight : ℚ) : List (ℤ × ℚ) → List (ℤ × ℚ)
  | [] => []
  | s :: rest =>
    if s.2 = 0 then (boneID, weight) :: rest
    else s :: setVertexBoneData boneID weight rest

/-- Vertex initialization (`animated_model.hpp` lines 417-418, likewise
`skinned_model.hpp` lines 184-185): `BoneIDs = ivec4(-1)`,
`BoneWeights = vec4(0.0f)` — four slots, all free. -/
def freshVertexSlots : List (ℤ × ℚ) :=
  List.replicate MAX_BONE_INFLUENCE (-1, 0)

/-- Claim C9: an influence is written exactly into the first of the
vertex slots whose weight is still 0.0 (`List.set` past the end when none
is free), the slot count never changes (so a vertex never exceeds
`MAX_BONE_INFLUENCE = 4` influences), and when every slot is taken the
influence is dropped with the remaining weights untouched — no
renormalization. -/
theorem C9_first_zero_slot (boneID : ℤ) (weight : ℚ) (slots : List (ℤ × ℚ)) :
    setVertexBoneData boneID weight slots
      = slots.set (slots.findIdx (fun s => decide (s.2 = 0))) (boneID, weight)
    ∧ (setVertexBoneData boneID weight slots).length = slots.length
    ∧ ((∀ s ∈ slots, s.2 ≠ 0) → setVertexBoneData boneID weight slots = slots) := by
  induction slots with
  | nil => exact ⟨rfl, rfl, fun _ => rfl⟩
  | cons s rest ih =>
    by_cases h : s.2 = 0
    · refine ⟨?_, ?_, ?_⟩
      · simp [setVertexBoneData, h, List.findIdx_cons]
      · simp [setVertexBoneData, h]
      · intro hall
        exact absurd h (hall s (List.mem_cons_self _ _))
    · refine ⟨?_, ?_, ?_⟩
      · simp [setVertexBoneData, h, List.findIdx_cons, ih.1]
      · simp [setVertexBoneData, h, ih.2.1]
      · intro hall
        have := ih.2.2 (fun q hq => hall q (List.mem_cons_of_mem _ hq))
        simp [setVertexBoneData, h, this]

/-- Claim C9 witness: the theorem applied to a saturated vertex (four
nonzero weights): the fifth influence is discarded and the weights are
exactly the old ones. -/
theorem C9_first_zero_slot_witness :
    setVertexBoneData 7 (1/2) [(1, 1/4), (2, 1/4), (3, 1/4), (4, 1/4)]
      = [(1, 1/4), (2, 1/4), (3, 1/4), (4, 1/4)] :=
  (C9_first_zero_slot 7 (1/2) [(1, 1/4), (2, 1/4), (3, 1/4), (4, 1/4)]).2.2
    (by
      intro s hs
      simp only [List.mem_cons, List.not_mem_nil, or_false] at hs
      rcases hs with rfl | rfl | rfl | rfl <;> norm_num)
mutual
/-- One `aiNode` as `ExtractJoints` reads it: a name, a local transform
(an opaque token here — the code only decomposes and stores it), and the
child nodes.  The child list is a mutually defined inductive so that all
recursions over the tree stay structural. -/
inductive AiNode where
  | node (name : String) (transform : ℚ) (children : AiNodeList)
/-- Child list of an `aiNode`. -/
inductive AiNodeList where
  | nil
  | cons (head : AiNode) (tail : AiNodeList)
end

mutual
/-- Node count of a subtree; termination measure for the preorder walk. -/
def nodeSize : AiNode → Nat
  | .node _ _ cs => 1 + listSize cs
/-- Node count of a sibling list. -/
def listSize : AiNodeList → Nat
  | .nil => 0
  | .cons c cs => nodeSize c + listSize cs
end

/-- One entry of the `joints` vector (`animated_model.hpp` lines 37-43,
268-273): `ExtractJoints` stores the node name, the parent index, the
decomposed node transform, and an identity `invBindPose`. -/
structure Joint where
  name : String
  parentIndex : ℤ
  localTransform : ℚ
  invBindPose : ℚ

instance : Inhabited Joint := ⟨⟨"", -1, 0, 1⟩⟩

/-- `boneMap.find(boneName)` on the `std::map<std::string, int>`
(`animated_model.hpp` line 259). -/
def mapFind (k : String) (mp : List (String × Nat)) : Option Nat :=
  (mp.find? (fun p => decide (p.1 = k))).map (fun p => p.2)

/-- The joint pushed by `joints.push_back` (`animated_model.hpp` lines
268-273): name, caller parent index, decomposed transform, identity
inverse bind pose. -/
def mkJoint (name : String) (parentIndex : ℤ) (tf : ℚ) : Joint :=
  { name := name, parentIndex := parentIndex, localTransform := tf, invBindPose := 1 }

/-- The recursive child loop of `ExtractJoints` (`animated_model.hpp`
lines 276-277) as worklist pushes: each child is pended with this node
as parent, ahead of the remaining work (depth-first preorder). -/
def pushChildren (j : ℤ) : AiNodeList → List (ℤ × AiNode) → List (ℤ × AiNode)
  | .nil, rest => rest
  | .cons c cs, rest => (j, c) :: pushChildren j cs rest

/-- Total node count still pending on the worklist. -/
def wlSize (l : List (ℤ × AiNode)) : Nat := (l.map (fun p => nodeSize p.2)).sum

/-- Helper: `wlSize` of a cons. -/
theorem wlSize_cons (p : ℤ) (nd : AiNode) (rest : List (ℤ × AiNode)) :
    wlSize ((p, nd) :: rest) = nodeSize nd + wlSize rest := by
  simp [wlSize]

/-- Helper: pushing the children adds exactly their total size. -/
theorem wlSize_pushChildren (j : ℤ) :
    ∀ (cs : AiNodeList) (rest : List (ℤ × AiNode)),
      wlSize (pushChildren j cs rest) = listSize cs + wlSize rest
  | .nil, rest => by simp [pushChildren, listSize]
  | .cons c cs2, rest => by
    rw [pushChildren, wlSize_cons, wlSize_pushChildren j cs2 rest, listSize]
    omega

/-- `GLTFLoader::ExtractJoints` (`animated_model.hpp` lines 255-278) as a
preorder worklist (each pending pair is the joint index of the parent —
`-1` for the root call — and a node): look the node name up in `boneMap`,
taking the mapped index or inserting `boneMap.size()` when absent; append
the joint; then process the children, depth first, with this node as
parent. -/
def extractJointsGo :
    List (ℤ × AiNode) → List Joint × List (String × Nat) →
      List Joint × List (String × Nat)
  | [], st => st
  | (parentIndex, AiNode.node name tf children) :: rest, (joints, boneMap) =>
    match mapFind name boneMap with
    | some i =>
      extractJointsGo (pushChildren (i : ℤ) children rest)
        (joints ++ [mkJoint name parentIndex tf], boneMap)
    | none =>
      extractJointsGo (pushChildren (boneMap.length : ℤ) children rest)
        (joints ++ [mkJoint name parentIndex tf], boneMap ++ [(name, boneMap.length)])
termination_by l _ => wlSize l
decreasing_by
  all_goals
    rw [wlSize_pushChildren, wlSize_cons, nodeSize]
    omega

/-- Helper: unfolding `extractJointsGo` on an empty worklist. -/
theorem extractJointsGo_nil (st : List Joint × List (String × Nat)) :
    extractJointsGo [] st = st := by
  unfold extractJointsGo
  rfl

/-- Helper: unfolding `extractJointsGo` when the node name is already in
the bone map. -/
theorem extractJointsGo_cons_found (parentIndex : ℤ) (name : String) (tf : ℚ)
    (children : AiNodeList) (rest : List (ℤ × AiNode)) (joints : List Joint)
    (boneMap : List (String × Nat)) (j : Nat) (h : mapFind name boneMap = some j) :
    extractJointsGo ((parentIndex, AiNode.node name tf children) :: rest) (joints, boneMap)
      = extractJointsGo (pushChildren (j : ℤ) children rest)
          (joints ++ [mkJoint name parentIndex tf], boneMap) := by
  conv_lhs => rw [extractJointsGo]
  rw [h]

/-- Helper: unfolding `extractJointsGo` when the node name is new. -/
theorem extractJointsGo_cons_new (parentIndex : ℤ) (name : String) (tf : ℚ)
    (children : AiNodeList) (rest : List (ℤ × AiNode)) (joints : List Joint)
    (boneMap : List (String × Nat)) (h : mapFind name boneMap = none) :
    extractJointsGo ((parentIndex, AiNode.node name tf children) :: rest) (joints, boneMap)
      = extractJointsGo (pushChildren (boneMap.length : ℤ) children rest)
          (joints ++ [mkJoint name parentIndex tf], boneMap ++ [(name, boneMap.length)]) := by
  conv_lhs => rw [extractJointsGo]
  rw [h]

/-- `GLTFLoader::ExtractJoints` as `ExtractSkeleton` invokes it
(`animated_model.hpp` line 283): on the scene root with parent index `-1`
and empty accumulators. -/
def ExtractJoints (root : AiNode) : List Joint × List (String × Nat) :=
  extractJointsGo [((-1 : ℤ), root)] ([], [])

/-- Helper: a node counts at least itself. -/
theorem one_le_nodeSize (nd : AiNode) : 1 ≤ nodeSize nd := by
  cases nd with
  | node name tf cs => rw [nodeSize]; omega

/-- Helper: membership in a child push is either a freshly pended child
(carrying the parent index `j`) or membership in the remaining work. -/
theorem mem_pushChildren (j : ℤ) :
    ∀ (cs : AiNodeList) (rest : List (ℤ × AiNode)) (p : ℤ × AiNode),
      p ∈ pushChildren j cs rest → p.1 = j ∨ p ∈ rest
  | .nil, rest, p => fun h => Or.inr h
  | .cons c cs2, rest, p => by
    intro h
    rcases List.mem_cons.mp h with rfl | h2
    · exact Or.inl rfl
    · exact mem_pushChildren j cs2 rest p h2

/-- Helper: the parent-before-child invariant is preserved by the whole
walk.  Hypotheses: every pending parent index is at least `-1` and below
the current joint count; the bone map is no longer than the joint list
and its values are below its own length; and the joints already emitted
satisfy the invariant. -/
theorem extractJointsGo_inv (n : Nat) :
    ∀ (l : List (ℤ × AiNode)) (joints : List Joint) (boneMap : List (String × Nat)),
      wlSize l ≤ n →
      (∀ p ∈ l, -1 ≤ p.1 ∧ p.1 < (joints.length : ℤ)) →
      boneMap.length ≤ joints.length →
      (∀ q ∈ boneMap, q.2 < boneMap.length) →
      (∀ i, i < joints.length →
        -1 ≤ (joints.getD i default).parentIndex
        ∧ (joints.getD i default).parentIndex < (i : ℤ)) →
      ∀ i, i < (extractJointsGo l (joints, boneMap)).1.length →
        -1 ≤ ((extractJointsGo l (joints, boneMap)).1.getD i default).parentIndex
        ∧ ((extractJointsGo l (joints, boneMap)).1.getD i default).parentIndex
            < (i : ℤ) := by
  induction n with
  | zero =>
    intro l joints boneMap hsize hpend hbm hvals hinv
    cases l with
    | nil => rw [extractJointsGo_nil]; exact hinv
    | cons x rest =>
      exfalso
      obtain ⟨p, nd⟩ := x
      rw [wlSize_cons] at hsize
      have := one_le_nodeSize nd
      omega
  | succ n ih =>
    intro l joints boneMap hsize hpend hbm hvals hinv
    cases l with
    | nil => rw [extractJointsGo_nil]; exact hinv
    | cons x rest =>
      obtain ⟨parentIndex, nd⟩ := x
      cases nd with
      | node name tf children =>
        have hhead := hpend (parentIndex, AiNode.node name tf children)
          (List.mem_cons_self _ _)
        rw [wlSize_cons, nodeSize] at hsize
        have hstep : ∀ jointIndex : Nat, jointIndex ≤ joints.length →
            ∀ boneMap2 : List (String × Nat),
              boneMap2.length ≤ joints.length + 1 →
              (∀ q ∈ boneMap2, q.2 < boneMap2.length) →
              ∀ i, i < (extractJointsGo (pushChildren (jointIndex : ℤ) children rest)
                  (joints ++ [mkJoint name parentIndex tf], boneMap2)).1.length →
                -1 ≤ ((extractJointsGo (pushChildren (jointIndex : ℤ) children rest)
                    (joints ++ [mkJoint name parentIndex tf], boneMap2)).1.getD i
                    default).parentIndex
                ∧ ((extractJointsGo (pushChildren (jointIndex : ℤ) children rest)
                    (joints ++ [mkJoint name parentIndex tf], boneMap2)).1.getD i
                    default).parentIndex < (i : ℤ) := by
          intro jointIndex hji boneMap2 hbm2 hvals2
          apply ih
          · rw [wlSize_pushChildren]
            omega
          · intro p hp
            have hlen : (joints ++ [mkJoint name parentIndex tf]).length
                = joints.length + 1 := by simp
            rcases mem_pushChildren (jointIndex : ℤ) children rest p hp with h1 | h1
            · rw [h1, hlen]
              constructor
              · exact le_trans (by norm_num) (Int.natCast_nonneg jointIndex)
              · push_cast
                omega
            · have hb := hpend p (List.mem_cons_of_mem _ h1)
              rw [hlen]
              refine ⟨hb.1, ?_⟩
              have := hb.2
              push_cast
              push_cast at this
              omega
          · simpa using hbm2
          · exact hvals2
          · intro i hi
            have hlen : (joints ++ [mkJoint name parentIndex tf]).length
                = joints.length + 1 := by simp
            rw [hlen] at hi
            rcases Nat.lt_or_ge i joints.length with hlt | hge
            · rw [List.getD_append _ _ _ _ hlt]
              exact hinv i hlt
            · have hieq : i = joints.length := by omega
              subst hieq
              rw [List.getD_append_right _ _ _ _ hge]
              simp only [Nat.sub_self, List.getD_cons_zero]
              exact ⟨hhead.1, hhead.2⟩
        rcases hfind : mapFind name boneMap with _ | j
        · rw [extractJointsGo_cons_new parentIndex name tf children rest joints boneMap hfind]
          apply hstep boneMap.length hbm (boneMap ++ [(name, boneMap.length)])
            (by simpa using Nat.succ_le_succ hbm)
          intro q hq
          rcases List.mem_append.mp hq with hq | hq
          · have := hvals q hq
            simp only [List.length_append, List.length_singleton]
            omega
          · rcases List.mem_singleton.mp hq with rfl
            simp
        · rw [extractJointsGo_cons_found parentIndex name tf children rest joints
            boneMap j hfind]
          have hjlt : j < boneMap.length := by
            obtain ⟨q, hqmem, hq2⟩ := Option.map_eq_some'.mp hfind
            have := hvals q (List.mem_of_find?_eq_some hqmem)
            omega
          exact hstep j (by omega) boneMap (by omega) hvals

/-- Claim C8: in the joint array `ExtractJoints` builds for
`ExtractSkeleton`, every joint is either a root (parent index `-1` — only
the initial call passes `-1`) or has a parent index that is nonnegative
and strictly smaller than its own index: parents are stored before their
children, for every input scene. -/
theorem C8_parent_before_child (root : AiNode) (i : Nat)
    (h : i < (ExtractJoints root).1.length) :
    (((ExtractJoints root).1.getD i default).parentIndex = -1
      ∨ 0 ≤ ((ExtractJoints root).1.getD i default).parentIndex)
    ∧ ((ExtractJoints root).1.getD i default).parentIndex < (i : ℤ) := by
  rw [ExtractJoints] at h ⊢
  have h2 := extractJointsGo_inv (wlSize [((-1 : ℤ), root)])
    [((-1 : ℤ), root)] [] [] (le_refl _)
    (by
      intro p hp
      rcases List.mem_singleton.mp hp with rfl
      exact ⟨le_refl _, by norm_num⟩)
    (by simp) (by intro q hq; simp at hq) (by intro i hi; simp at hi) i h
  refine ⟨?_, h2.2⟩
  rcases eq_or_lt_of_le h2.1 with heq | hlt
  · exact Or.inl heq.symm
  · exact Or.inr (by omega)

/-- Claim C8 witness: the theorem applied to a two-node scene (root
`"A"`, child `"B"`) at joint index 1. -/
theorem C8_parent_before_child_witness :
    (((ExtractJoints (AiNode.node "A" 0 (AiNodeList.cons (AiNode.node "B" 0 AiNodeList.nil)
            AiNodeList.nil))).1.getD 1 default).parentIndex = -1
      ∨ 0 ≤ ((ExtractJoints (AiNode.node "A" 0 (AiNodeList.cons (AiNode.node "B" 0 AiNodeList.nil)
            AiNodeList.nil))).1.getD 1 default).parentIndex)
    ∧ ((ExtractJoints (AiNode.node "A" 0 (AiNodeList.cons (AiNode.node "B" 0 AiNodeList.nil)
            AiNodeList.nil))).1.getD 1 default).parentIndex < (1 : ℤ) :=
  C8_parent_before_child _ 1
    (by simp [ExtractJoints, extractJointsGo, mapFind, pushChildren, List.find?])
end GLTFLoader
